import Mathlib

/-!
Verification of the badge generator (`main.go`) against its specification.

The Go source is shallowly embedded below: pure rendering arithmetic becomes
Lean functions over `Nat` (with explicit `% 2 ^ 32` / `% 256` where the Go
code works in `uint32` / `uint8`), the scheduler's enumeration becomes a list
computation, and fallible paths (the runtime panic in single-job mode) become
`Except`.  Each definition's doc comment cites the `main.go` lines it embeds.
-/

namespace Badge

/-- Canvas edge length, `OutputSize` (main.go:29). -/
def OutputSize : Nat := 300

/-- Output directory, `OutputPath` (main.go:28). -/
def OutputPath : String := "images"

/-- An 8-bit-per-channel RGBA color (`color.RGBA`); fields are byte values. -/
structure RGBA where
  r : Nat
  g : Nat
  b : Nat
  a : Nat
deriving DecidableEq

/-- The fully transparent black pixel, `color.RGBA{0, 0, 0, 0}`. -/
def transparentRGBA : RGBA := ⟨0, 0, 0, 0⟩

/-- A pixel coordinate of the fixed `OutputSize × OutputSize` canvas. -/
abbrev Pixel : Type := Fin OutputSize × Fin OutputSize

/-- A full-color canvas (`*image.RGBA` of canvas size), as a pixel map. -/
abbrev Canvas : Type := Pixel → RGBA

/-- An alpha-only mask (`*image.Alpha` of canvas size): 8-bit coverage per pixel. -/
abbrev Mask : Type := Pixel → Nat

/-- Go `color.RGBA.RGBA()` widens an 8-bit channel `c` to 16 bits as
`c | c << 8 = c * 257`; `ma |= ma << 8` in `drawGlyphOver` does the same. -/
def chan16 (c : Nat) : Nat := c * 257

/-- One channel of Go's `drawGlyphOver` over-blend (image/draw):
`a := (m - sa*ma/m) * 0x101; out = uint8((uint32(d)*a + sc*ma) / m >> 8)`
with `m = 0xffff`; `d` is the 8-bit destination channel, `sc`/`sa` the 16-bit
source channel/alpha, `ma` the 16-bit mask value.  `uint32` arithmetic is
modelled by the explicit `% 2 ^ 32`, the `uint8` store by `% 256`. -/
def blendChannel (d sc sa ma : Nat) : Nat :=
  let a := (65535 - sa * ma / 65535) * 257
  ((((d * a + sc * ma) % 2 ^ 32) / 65535) >>> 8) % 256

/-- `drawTinted` (main.go:173-175): `draw.DrawMask(dst, bounds, uniform tint,
mask, Over)`, which Go dispatches to `drawGlyphOver`; a zero mask byte leaves
the destination pixel untouched (`if ma == 0 { continue }`). -/
def drawTinted (dst : Canvas) (mask : Mask) (tint : RGBA) : Canvas :=
  fun p =>
    let mv := mask p
    if mv = 0 then dst p
    else
      let ma := chan16 mv
      let d := dst p
      { r := blendChannel d.r (chan16 tint.r) (chan16 tint.a) ma
        g := blendChannel d.g (chan16 tint.g) (chan16 tint.a) ma
        b := blendChannel d.b (chan16 tint.b) (chan16 tint.a) ma
        a := blendChannel d.a (chan16 tint.a) (chan16 tint.a) ma }

/-- The canvas clear in `processJob` (main.go:157):
`draw.Draw(dst, dst.Bounds(), image.Transparent, image.Point{}, draw.Src)`
sets every pixel to transparent black regardless of the pooled buffer's
prior contents. -/
def clearCanvas (_prior : Canvas) : Canvas := fun _ => transparentRGBA

/-- `createSmartPalette` (main.go:177-193): index 0 is transparent, indices
1-4 are `c1` at alphas 255,170,85,20, indices 5-8 are `c2` at the same
alphas. -/
def createSmartPalette (c1 c2 : RGBA) : List RGBA :=
  let alphas : List Nat := [255, 170, 85, 20]
  [transparentRGBA] ++
    alphas.map (fun a => ⟨c1.r, c1.g, c1.b, a⟩) ++
    alphas.map (fun a => ⟨c2.r, c2.g, c2.b, a⟩)

/-- Go image/draw `sqDiff` on the 16-bit channel values `x`, `y`:
`d := x - y; return uint32(d*d) >> 2` — the `int32` square wraps to
`(x-y)^2 mod 2^32` and is then shifted. -/
def sqDiffGo (x y : Nat) : Nat := (((max x y - min x y) ^ 2) % 2 ^ 32) >>> 2

/-- The squared palette distance used by Go's `drawPaletted`: the sum of
`sqDiff` over the four 16-bit channels, in `uint32` arithmetic. -/
def distSum (c q : RGBA) : Nat :=
  (sqDiffGo (chan16 c.r) (chan16 q.r) + sqDiffGo (chan16 c.g) (chan16 q.g) +
    sqDiffGo (chan16 c.b) (chan16 q.b) + sqDiffGo (chan16 c.a) (chan16 q.a)) % 2 ^ 32

/-- The nearest-palette-index loop of Go's `drawPaletted` (no dithering):
`bestIndex, bestSum := 0, uint32(1<<32-1)`; strict improvement updates, and
a zero distance breaks out with the current index. -/
def bestIndexAux (t : RGBA) : List RGBA → Nat → Nat → Nat → Nat
  | [], _, best, _ => best
  | q :: rest, idx, best, bestSum =>
    let sum := distSum t q
    if sum < bestSum then
      if sum = 0 then idx
      else bestIndexAux t rest (idx + 1) idx sum
    else bestIndexAux t rest (idx + 1) best bestSum

/-- Entry point of the nearest-palette-index search for one source pixel. -/
def bestIndex (t : RGBA) (pal : List RGBA) : Nat :=
  bestIndexAux t pal 0 0 (2 ^ 32 - 1)

/-- One pixel of `draw.Draw(palImg, ..., img, draw.Src)` with a paletted
destination (main.go:200): Go's `drawPaletted` stores `byte(bestIndex)`. -/
def drawPalettedPix (pal : List RGBA) (c : RGBA) : Nat := bestIndex c pal % 256

/-- The file produced by `savePNG` (main.go:195-215): its name, resolved
path, palette, and per-pixel palette indices.  PNG byte serialization
(`png.Encoder.Encode`) is the external encoder boundary and is a pure
function of these fields. -/
structure OutFile where
  name : String
  path : String
  palette : List RGBA
  pix : Pixel → Nat

/-- `savePNG` (main.go:195-215): quantizes the canvas through the palette
(nearest color per pixel, no dithering) and writes `OutputPath/filename`,
except that the single-mode name `badge.png` goes to the working directory. -/
def savePNG (filename : String) (img : Canvas) (pal : List RGBA) : OutFile :=
  { name := filename
    path := if filename = "badge.png" then "badge.png" else OutputPath ++ "/" ++ filename
    palette := pal
    pix := fun p => drawPalettedPix pal (img p) }

/-- `RenderJob` (main.go:40-46). -/
structure RenderJob where
  filename : String
  palette : List RGBA
  symbol : Option Mask
  border : Option Mask
  outline : Option Mask

/-- The compositing phase of `processJob` (main.go:153-168): clear the pooled
canvas, then draw border with `Palette[5]` (100% c2), symbol with
`Palette[1]` (100% c1), outline with `Palette[1]`, skipping `nil` masks.
Both call sites build the palette with `createSmartPalette`, so it always has
nine entries; the out-of-range default of `getD` is never reached. -/
def compositeJob (prior : Canvas) (j : RenderJob) : Canvas :=
  let dst := clearCanvas prior
  let dst := match j.border with
    | some m => drawTinted dst m (j.palette.getD 5 transparentRGBA)
    | none => dst
  let dst := match j.symbol with
    | some m => drawTinted dst m (j.palette.getD 1 transparentRGBA)
    | none => dst
  match j.outline with
  | some m => drawTinted dst m (j.palette.getD 1 transparentRGBA)
  | none => dst

/-- `processJob` (main.go:153-171): composite, then `savePNG`. -/
def processJob (prior : Canvas) (j : RenderJob) : OutFile :=
  savePNG j.filename (compositeJob prior j) j.palette

/-- `BadgeColorData` (main.go:32); the CSV fields are Go `int`s. -/
structure BadgeColorData where
  R : Int
  G : Int
  B : Int
deriving DecidableEq

/-- `BadgeIconData` (main.go:34-38). -/
structure BadgeIconData where
  layer : Int
  scaledIcon : Option Mask
  scaledOutline : Option Mask

/-- The in-memory tables built by `loadIcons` (main.go:48-59): the color
table, the color-index lists split by the CSV layer column, and the icon
table.  Catalog parsing itself is an external collaborator; the claims are
about the program's behavior on the loaded tables. -/
structure Catalog where
  badgeColors : List BadgeColorData
  layer0ColorIndices : List Nat
  layer1ColorIndices : List Nat
  badgeIcons : List BadgeIconData

/-- Go `uint8(i)` on an `int`: the value modulo 256. -/
def goUint8 (i : Int) : Nat := (Int.emod i 256).toNat

/-- `getColor` (main.go:319-325): out-of-range indices yield opaque white,
in-range indices yield the table entry with alpha 255. -/
def getColor (cat : Catalog) (idx : Int) : RGBA :=
  if h : idx < 0 ∨ (cat.badgeColors.length : Int) ≤ idx then ⟨255, 255, 255, 255⟩
  else
    let c := cat.badgeColors.get ⟨idx.toNat, by omega⟩
    ⟨goUint8 c.R, goUint8 c.G, goUint8 c.B, 255⟩

/-- `calculateTotal` (main.go:349-359): one pass counting `Layer == 0` icons
as symbols and every other icon as a shape, then the four-way product. -/
def calculateTotal (cat : Catalog) : Nat :=
  let counts := cat.badgeIcons.foldl
    (fun (p : Nat × Nat) icon => if icon.layer = 0 then (p.1 + 1, p.2) else (p.1, p.2 + 1))
    (0, 0)
  counts.1 * counts.2 * cat.layer0ColorIndices.length * cat.layer1ColorIndices.length

/-- A `(sIdx, bIdx, c1Idx, c2Idx)` quadruple enumerated by the producer. -/
abbrev Quad : Type := Nat × Nat × Nat × Nat

/-- The canonical filename `fmt.Sprintf("%d-%d-%d-%d.png", sIdx, bIdx, c1Idx, c2Idx)`
(main.go:129). -/
def fname (q : Quad) : String :=
  toString q.1 ++ "-" ++ toString q.2.1 ++ "-" ++ toString q.2.2.1 ++ "-" ++
    toString q.2.2.2 ++ ".png"

/-- The `(sIdx, symbol)` pairs the producer's symbol loop visits
(main.go:121-124): indexed icons whose layer is exactly 0. -/
def symbolsIdx (cat : Catalog) : List (Nat × BadgeIconData) :=
  cat.badgeIcons.enum.filter (fun si => si.2.layer == 0)

/-- The `(bIdx, border)` pairs the producer's border loop visits
(main.go:125-128): indexed icons whose layer is exactly 1. -/
def bordersIdx (cat : Catalog) : List (Nat × BadgeIconData) :=
  cat.badgeIcons.enum.filter (fun bi => bi.2.layer == 1)

/-- The full quadruple enumeration of the producer goroutine
(main.go:113-145), in loop-nesting order: primary color, secondary color,
symbol icon, border icon. -/
def enumQuads (cat : Catalog) : List Quad :=
  cat.layer0ColorIndices.flatMap fun c1 =>
    cat.layer1ColorIndices.flatMap fun c2 =>
      (symbolsIdx cat).flatMap fun si =>
        (bordersIdx cat).map fun bi => (si.1, bi.1, c1, c2)

/-- The observable outcome of one batch run of `main` (main.go:87-150). -/
structure BatchResult where
  total : Nat
  queued : List Quad
  skipped : List Quad
  written : List String
  finalCount : Nat
  exitOk : Bool
deriving DecidableEq

/-- The batch mode of `main` (main.go:87-150): if `calculateTotal` is zero
the run returns immediately (main.go:92-94); otherwise every enumerated
quadruple whose filename is in `existingFiles` is counted and skipped
(main.go:130-133), and the rest are queued, rendered and written, each
advancing the shared progress counter once. -/
def runBatch (cat : Catalog) (existing : List String) : BatchResult :=
  let total := calculateTotal cat
  if total = 0 then ⟨total, [], [], [], 0, true⟩
  else
    let quads := enumQuads cat
    let skipped := quads.filter (fun q => decide (fname q ∈ existing))
    let queued := quads.filter (fun q => !decide (fname q ∈ existing))
    ⟨total, queued, skipped, queued.map fname, skipped.length + queued.length, true⟩

/-- The digit-run accumulator of Go `strconv.Atoi`: `none` on the first
non-digit byte. -/
def parseNatDigits : List Char → Nat → Option Nat
  | [], acc => some acc
  | c :: rest, acc =>
    if c.isDigit then parseNatDigits rest (acc * 10 + (c.toNat - 48)) else none

/-- Go `strconv.Atoi` with its error ignored, as at main.go:371-374: an
optional sign followed by one or more digits parses to its value; anything
else (including the empty string) leaves the variable at 0. -/
def atoi (s : String) : Int :=
  match s.data with
  | [] => 0
  | '+' :: rest =>
    if rest = [] then 0 else (parseNatDigits rest 0).elim 0 Int.ofNat
  | '-' :: rest =>
    if rest = [] then 0 else (parseNatDigits rest 0).elim 0 (fun n => -(n : Int))
  | cs => (parseNatDigits cs 0).elim 0 Int.ofNat

/-- An arbitrary pooled buffer handed to a job; its contents are irrelevant
because `processJob` clears it first. -/
def poolCanvas : Canvas := fun _ => transparentRGBA

/-- Accumulator recursion behind `goSplit`. -/
def goSplitAux (sep : Char) : List Char → List Char → List String
  | [], acc => [String.mk acc.reverse]
  | c :: rest, acc =>
    if c = sep then String.mk acc.reverse :: goSplitAux sep rest []
    else goSplitAux sep rest (c :: acc)

/-- Go `strings.Split` with a one-character separator, as used at
main.go:367: every maximal separator-free run becomes a field, and the
empty string splits to one empty field. -/
def goSplit (sep : Char) (s : String) : List String := goSplitAux sep s.data []

/-- Core of `runSingleMode` (main.go:366-388) after `strings.Split(arg, "_")`.
A list of other than four fields takes the silent `return` at main.go:368-370
(`.ok none`: no file, no message).  With four fields, the color lookups are
bounds-checked inside `getColor`, but `badgeIcons[s]` and `badgeIcons[b]`
(main.go:382-384) are raw slice accesses: an out-of-range icon index is a Go
runtime panic, modelled as `.error`.  The symbol access is evaluated first. -/
def runSingleModeParts (cat : Catalog) : List String → Except String (Option OutFile)
  | [p0, p1, p2, p3] =>
    let s := atoi p0
    let b := atoi p1
    let c1Idx := atoi p2
    let c2Idx := atoi p3
    let c1 := getColor cat c1Idx
    let c2 := getColor cat c2Idx
    let pal := createSmartPalette c1 c2
    if hs : 0 ≤ s ∧ s.toNat < cat.badgeIcons.length then
      if hb : 0 ≤ b ∧ b.toNat < cat.badgeIcons.length then
        let sym := cat.badgeIcons.get ⟨s.toNat, hs.2⟩
        let bord := cat.badgeIcons.get ⟨b.toNat, hb.2⟩
        .ok (some (processJob poolCanvas
          ⟨"badge.png", pal, sym.scaledIcon, bord.scaledIcon, bord.scaledOutline⟩))
      else .error "runtime error: index out of range"
    else .error "runtime error: index out of range"
  | _ => .ok none

/-- `runSingleMode` (main.go:366-388). -/
def runSingleMode (cat : Catalog) (arg : String) : Except String (Option OutFile) :=
  runSingleModeParts cat (goSplit '_' arg)

/-- Whether a single-mode outcome wrote a badge file. -/
def producesFile : Except String (Option OutFile) → Bool
  | .ok (some _) => true
  | _ => false

/-- Whether a single-mode outcome was a runtime panic. -/
def isRuntimeError : Except String (Option OutFile) → Bool
  | .error _ => true
  | _ => false

/-- Whether a single-mode outcome returned silently with no file and no
usage message. -/
def silentNoFile : Except String (Option OutFile) → Bool
  | .ok none => true
  | _ => false

/-- A decoded raw bitmap (`*image.RGBA` of arbitrary bounds). -/
structure SrcImage where
  width : Nat
  height : Nat
  pix : Nat → Nat → RGBA

/-- The asset environment of `loadRawImage`: the lower-cased
filename-to-path index built by `buildFileCaseMap` (main.go:339-347) and the
embedded-filesystem open-and-decode step (main.go:306-311), which yields
`none` on a decode failure. -/
structure AssetStore where
  fileCaseMap : List (String × String)
  decode : String → Option SrcImage

/-- Go `strings.HasSuffix`. -/
def goHasSuffix (s suffix : String) : Bool := suffix.data.isSuffixOf s.data

/-- Go `strings.ToLower` on the ASCII asset names: upper-case ASCII letters
are shifted down by 32, other characters kept. -/
def goToLower (s : String) : String :=
  String.mk (s.data.map fun c =>
    if 65 ≤ c.toNat && c.toNat ≤ 90 then Char.ofNat (c.toNat + 32) else c)

/-- `loadRawImage` (main.go:293-317): an empty name, an unresolvable name,
or a decode failure each yield `none`; the `.png` suffix is appended when
missing and the lookup is on the lower-cased name. -/
def loadRawImage (st : AssetStore) (name : String) : Option SrcImage :=
  if name = "" then none
  else
    let fn := if goHasSuffix name ".png" then name else name ++ ".png"
    match (st.fileCaseMap.lookup (goToLower fn)) with
    | none => none
    | some path => st.decode path

/-- Go `int(x)` on a `float64`: truncation toward zero.  The `float64`
products of `preProcessImage` are modelled as exact rationals. -/
def goTrunc (q : ℚ) : Int := if 0 ≤ q then ⌊q⌋ else -⌊-q⌋

/-- A placement rectangle `image.Rect(ox, oy, ox+w, oy+h)`. -/
structure Geo where
  ox : Int
  oy : Int
  w : Int
  h : Int
deriving DecidableEq

/-- The placement geometry of `preProcessImage` (main.go:222-225):
`w, h := int(float64(Dx)*scale), int(float64(Dy)*scale)` and
`ox, oy := (OutputSize-w)/2, (OutputSize-h)/2` with Go's
truncating `int` division. -/
def preGeometry (srcW srcH : Nat) (scale : ℚ) : Geo :=
  let w := goTrunc ((srcW : ℚ) * scale)
  let h := goTrunc ((srcH : ℚ) * scale)
  ⟨Int.tdiv ((OutputSize : Int) - w) 2, Int.tdiv ((OutputSize : Int) - h) 2, w, h⟩

/-- Membership of a canvas pixel in a placement rectangle. -/
def inRect (g : Geo) (p : Pixel) : Bool :=
  decide (g.ox ≤ ((p.1 : Nat) : Int)) && decide (((p.1 : Nat) : Int) < g.ox + g.w) &&
    decide (g.oy ≤ ((p.2 : Nat) : Int)) && decide (((p.2 : Nat) : Int) < g.oy + g.h)

/-- `preProcessImage` (main.go:217-242): `nil` input propagates to a `nil`
mask; otherwise the source is resampled (`xdraw.CatmullRom.Scale`, a
floating-point kernel abstracted here as the `kernel` argument) into the
centered rectangle of a freshly cleared scratch canvas, and the alpha channel
is extracted — pixels outside the placement rectangle keep the cleared
scratch's zero alpha. -/
def preProcessImage (kernel : SrcImage → Geo → Pixel → Nat)
    (src : Option SrcImage) (scale : ℚ) : Option Mask :=
  src.map fun img =>
    let g := preGeometry img.width img.height scale
    fun p => if inRect g p then kernel img g p else 0

/-- Modelled from the spec (section 4.2 Compositor): the layers, each an
optional mask paired with its tint, are applied back-to-front in the fixed
order border-base with the secondary color, symbol with the primary color,
border-outline with the primary color; each present layer composites its
tint over the canvas through the mask's alpha, absent layers are skipped,
and the canvas starts fully transparent. -/
def compositorSpec (c1 c2 : RGBA) (border symbol outline : Option Mask) : Canvas :=
  [(border, c2), (symbol, c1), (outline, c1)].foldl
    (fun canvas layer =>
      match layer.1 with
      | some m => drawTinted canvas m layer.2
      | none => canvas)
    (fun _ => transparentRGBA)

/-! Concrete fixtures used to evaluate the definitions on explicit inputs. -/

/-- A mask that is zero everywhere: it covers nothing. -/
def zeroMask : Mask := fun _ => 0

/-- A concrete constant mask. -/
def maskA : Mask := fun _ => 200

/-- A second concrete constant mask. -/
def maskB : Mask := fun _ => 65

/-- The top-left canvas pixel. -/
def pix0 : Pixel := (⟨0, by decide⟩, ⟨0, by decide⟩)

/-- A small two-color, two-icon catalog: color 0 has primary affinity,
color 1 secondary; icon 0 is a symbol (layer 0), icon 1 a border (layer 1). -/
def demoCat : Catalog :=
  { badgeColors := [⟨10, 20, 30⟩, ⟨200, 100, 50⟩]
    layer0ColorIndices := [0]
    layer1ColorIndices := [1]
    badgeIcons := [⟨0, none, none⟩, ⟨1, none, none⟩] }

/-- A catalog with a symbol icon but no border icon: its combination space
is empty. -/
def catZero : Catalog :=
  { badgeColors := [⟨0, 0, 0⟩]
    layer0ColorIndices := [0]
    layer1ColorIndices := [0]
    badgeIcons := [⟨0, none, none⟩] }

/-- A catalog whose third icon carries the out-of-domain layer value 2
while every combination factor is positive. -/
def catNine : Catalog :=
  { badgeColors := [⟨1, 2, 3⟩, ⟨4, 5, 6⟩]
    layer0ColorIndices := [0]
    layer1ColorIndices := [1]
    badgeIcons := [⟨0, none, none⟩, ⟨1, none, none⟩, ⟨2, none, none⟩] }

/-- A catalog whose only icon carries layer 2 and whose color lists are
empty. -/
def cexCat : Catalog :=
  { badgeColors := []
    layer0ColorIndices := []
    layer1ColorIndices := []
    badgeIcons := [⟨2, none, none⟩] }

/-- A source bitmap of exactly canvas size. -/
def srcImg0 : SrcImage := ⟨OutputSize, OutputSize, fun _ _ => transparentRGBA⟩

/-- A concrete resampling kernel placeholder. -/
def kernel0 : SrcImage → Geo → Pixel → Nat := fun _ _ _ => 0

/-- A one-asset store whose decoder always fails. -/
def store0 : AssetStore := ⟨[("a.png", "assets/badges/a.png")], fun _ => none⟩

/-- A concrete palette for fixture jobs. -/
def palette0 : List RGBA := createSmartPalette ⟨9, 8, 7, 255⟩ ⟨6, 5, 4, 255⟩

/-- A fixture job whose symbol mask is absent. -/
def jobNoSym : RenderJob := ⟨"n.png", palette0, none, some maskA, none⟩

/-! ## Helper lemmas -/

theorem foldl_iconCount (l : List BadgeIconData) (a b : Nat) :
    l.foldl (fun (p : Nat × Nat) icon =>
        if icon.layer = 0 then (p.1 + 1, p.2) else (p.1, p.2 + 1)) (a, b) =
      (a + (l.filter (fun i => i.layer == 0)).length,
        b + (l.filter (fun i => !(i.layer == 0))).length) := by
  induction l generalizing a b with
  | nil => simp
  | cons x xs ih =>
    by_cases hx : x.layer = 0 <;>
      simp [List.foldl_cons, hx, ih, List.filter_cons] <;> omega

theorem calculateTotal_eq (cat : Catalog) :
    calculateTotal cat =
      (cat.badgeIcons.filter (fun i => i.layer == 0)).length *
        (cat.badgeIcons.filter (fun i => !(i.layer == 0))).length *
        cat.layer0ColorIndices.length * cat.layer1ColorIndices.length := by
  unfold calculateTotal
  rw [foldl_iconCount]
  simp

theorem enumFrom_filter_length (q : BadgeIconData → Bool) (l : List BadgeIconData) :
    ∀ n, ((List.enumFrom n l).filter (fun p => q p.2)).length = (l.filter q).length := by
  induction l with
  | nil => intro n; simp
  | cons x xs ih =>
    intro n
    by_cases hx : q x = true <;>
      simp [List.enumFrom, List.filter_cons, hx, ih (n + 1)]

theorem symbolsIdx_length (cat : Catalog) :
    (symbolsIdx cat).length =
      (cat.badgeIcons.filter (fun i => i.layer == 0)).length := by
  simpa [symbolsIdx, List.enum] using
    enumFrom_filter_length (fun i => i.layer == 0) cat.badgeIcons 0

theorem bordersIdx_length (cat : Catalog) :
    (bordersIdx cat).length =
      (cat.badgeIcons.filter (fun i => i.layer == 1)).length := by
  simpa [bordersIdx, List.enum] using
    enumFrom_filter_length (fun i => i.layer == 1) cat.badgeIcons 0

theorem length_flatMap_const {α β : Type} (l : List α) (f : α → List β) (n : Nat)
    (h : ∀ a ∈ l, (f a).length = n) : (l.flatMap f).length = l.length * n := by
  induction l with
  | nil => simp
  | cons x xs ih =>
    simp only [List.flatMap_cons, List.length_append, List.length_cons]
    rw [h x (List.mem_cons_self x xs), ih (fun a ha => h a (List.mem_cons_of_mem x ha))]
    ring

theorem enumQuads_length (cat : Catalog) :
    (enumQuads cat).length =
      (cat.badgeIcons.filter (fun i => i.layer == 0)).length *
        (cat.badgeIcons.filter (fun i => i.layer == 1)).length *
        cat.layer0ColorIndices.length * cat.layer1ColorIndices.length := by
  unfold enumQuads
  rw [length_flatMap_const _ _
    (cat.layer1ColorIndices.length * ((symbolsIdx cat).length * (bordersIdx cat).length))
    (fun c1 _ => by
      rw [length_flatMap_const _ _ ((symbolsIdx cat).length * (bordersIdx cat).length)
        (fun c2 _ => by
          rw [length_flatMap_const _ _ (bordersIdx cat).length (fun si _ => by simp)])])]
  rw [symbolsIdx_length, bordersIdx_length]
  ring

theorem filter_length_mono {α : Type} (l : List α) (p q : α → Bool)
    (h : ∀ a ∈ l, p a = true → q a = true) :
    (l.filter p).length ≤ (l.filter q).length := by
  induction l with
  | nil => simp
  | cons x xs ih =>
    have ih2 := ih (fun a ha hpa => h a (List.mem_cons_of_mem x ha) hpa)
    by_cases hx : p x = true
    · have hq := h x (List.mem_cons_self x xs) hx
      simp only [List.filter_cons, hx, hq, if_true, List.length_cons]
      omega
    · by_cases hqx : q x = true <;>
        simp only [List.filter_cons, hx, hqx, if_true, if_false, Bool.false_eq_true,
          List.length_cons] <;> omega

theorem filter_length_strict {α : Type} (l : List α) (p q : α → Bool) (x : α)
    (hx : x ∈ l) (hqx : q x = true) (hpx : p x = false)
    (h : ∀ a ∈ l, p a = true → q a = true) :
    (l.filter p).length < (l.filter q).length := by
  induction l with
  | nil => cases hx
  | cons y ys ih =>
    rcases List.mem_cons.mp hx with rfl | hmem
    · have hle := filter_length_mono ys p q (fun a ha => h a (List.mem_cons_of_mem _ ha))
      simp only [List.filter_cons, hpx, hqx, if_true, Bool.false_eq_true, if_false,
        List.length_cons]
      omega
    · have hlt := ih hmem (fun a ha => h a (List.mem_cons_of_mem _ ha))
      by_cases hy : p y = true
      · have hqy := h y (List.mem_cons_self _ _) hy
        simp only [List.filter_cons, hy, hqy, if_true, List.length_cons]
        omega
      · by_cases hqy : q y = true <;>
          simp only [List.filter_cons, hy, hqy, if_true, if_false, Bool.false_eq_true,
            List.length_cons] <;> omega

theorem borders_le_shapes (cat : Catalog) :
    (cat.badgeIcons.filter (fun i => i.layer == 1)).length ≤
      (cat.badgeIcons.filter (fun i => !(i.layer == 0))).length := by
  apply filter_length_mono
  intro a _ ha
  simp only [beq_iff_eq] at ha
  simp [ha]

theorem shapes_filter_eq (cat : Catalog)
    (h : ∀ i ∈ cat.badgeIcons, i.layer = 0 ∨ i.layer = 1) :
    cat.badgeIcons.filter (fun i => !(i.layer == 0)) =
      cat.badgeIcons.filter (fun i => i.layer == 1) := by
  apply List.filter_congr
  intro x hx
  rcases h x hx with h0 | h1
  · simp [h0]
  · simp [h1]

theorem enumQuads_nil_of_total (cat : Catalog) (h : calculateTotal cat = 0) :
    enumQuads cat = [] := by
  have hb := borders_le_shapes cat
  have htot := calculateTotal_eq cat
  rw [h] at htot
  have hlen : (enumQuads cat).length = 0 := by
    rw [enumQuads_length]
    rcases Nat.mul_eq_zero.mp htot.symm with h3 | hL1
    · rcases Nat.mul_eq_zero.mp h3 with h2 | hL0
      · rcases Nat.mul_eq_zero.mp h2 with hs0 | hsN
        · simp [hs0]
        · have : (cat.badgeIcons.filter (fun i => i.layer == 1)).length = 0 := by omega
          simp [this]
      · simp [hL0]
    · simp [hL1]
  exact List.length_eq_zero.mp hlen

/-! ## Claims -/

/-- C1: over the spec's data-model domain (every icon's layer is symbol = 0
or border = 1), the reported total equals (#symbol icons) × (#border icons) ×
(#primary colors) × (#secondary colors); and whenever the total is zero the
batch run queues, skips and writes nothing, its counter stays at zero, it
exits cleanly, and the enumeration itself is empty. -/
theorem scheduler_total_law (cat : Catalog) (existing : List String)
    (h : ∀ i ∈ cat.badgeIcons, i.layer = 0 ∨ i.layer = 1) :
    calculateTotal cat =
      (cat.badgeIcons.filter (fun i => i.layer == 0)).length *
        (cat.badgeIcons.filter (fun i => i.layer == 1)).length *
        cat.layer0ColorIndices.length * cat.layer1ColorIndices.length
    ∧ (calculateTotal cat = 0 →
        runBatch cat existing = ⟨0, [], [], [], 0, true⟩ ∧ enumQuads cat = []) := by
  constructor
  · rw [calculateTotal_eq, shapes_filter_eq cat h]
  · intro h0
    refine ⟨?_, enumQuads_nil_of_total cat h0⟩
    simp [runBatch, h0]

/-- C1 witness: a catalog with a symbol icon but no border icon has total
zero, and its batch run does no work. -/
theorem scheduler_total_law_attest :
    runBatch catZero [] = ⟨0, [], [], [], 0, true⟩ ∧ enumQuads catZero = [] :=
  (scheduler_total_law catZero [] (by decide)).2 (by decide)

/-- C9 (amended): when every icon's layer is 0 or 1 the reported total
equals the number of enumerated quadruples; and it strictly exceeds that
number whenever some icon has a layer outside {0, 1} provided there is at
least one symbol icon, one primary color and one secondary color. -/
theorem total_vs_enumeration (cat : Catalog) :
    ((∀ i ∈ cat.badgeIcons, i.layer = 0 ∨ i.layer = 1) →
      calculateTotal cat = (enumQuads cat).length)
    ∧ ((∃ i ∈ cat.badgeIcons, i.layer ≠ 0 ∧ i.layer ≠ 1) →
        (cat.badgeIcons.filter (fun i => i.layer == 0)).length ≠ 0 →
        cat.layer0ColorIndices ≠ [] → cat.layer1ColorIndices ≠ [] →
        (enumQuads cat).length < calculateTotal cat) := by
  constructor
  · intro h
    rw [calculateTotal_eq, shapes_filter_eq cat h, enumQuads_length]
  · rintro ⟨x, hxmem, hx0, hx1⟩ hs0 hL0 hL1
    rw [calculateTotal_eq, enumQuads_length]
    have hstrict : (cat.badgeIcons.filter (fun i => i.layer == 1)).length <
        (cat.badgeIcons.filter (fun i => !(i.layer == 0))).length := by
      apply filter_length_strict _ _ _ x hxmem
      · simp [hx0]
      · simp [hx1]
      · intro a _ ha
        simp only [beq_iff_eq] at ha
        simp [ha]
    have hp0 : 0 < (cat.badgeIcons.filter (fun i => i.layer == 0)).length :=
      Nat.pos_of_ne_zero hs0
    have hpL0 : 0 < cat.layer0ColorIndices.length := List.length_pos.mpr hL0
    have hpL1 : 0 < cat.layer1ColorIndices.length := List.length_pos.mpr hL1
    have h1 := Nat.mul_lt_mul_of_lt_of_le (Nat.mul_lt_mul_of_le_of_lt
      (Nat.le_refl _) hstrict hp0) (Nat.le_refl cat.layer0ColorIndices.length) hpL0
    exact Nat.mul_lt_mul_of_lt_of_le h1 (Nat.le_refl _) hpL1

/-- C9 counterexample: the unamended claim says the total exceeds the
enumerated-job count whenever some icon has a layer outside {0, 1}; for a
catalog whose only icon has layer 2 and whose color lists are empty, both
are zero and no excess occurs. -/
theorem total_vs_enumeration_cex :
    (∃ i ∈ cexCat.badgeIcons, i.layer ≠ 0 ∧ i.layer ≠ 1) ∧
      ¬ (enumQuads cexCat).length < calculateTotal cexCat := by
  constructor
  · exact ⟨⟨2, none, none⟩, by simp [cexCat], by decide, by decide⟩
  · decide

/-- C9 witness: on a well-layered catalog the total matches the enumeration;
adding a layer-2 icon to a catalog with nonzero factors makes the total
strictly larger. -/
theorem total_vs_enumeration_attest :
    calculateTotal demoCat = (enumQuads demoCat).length ∧
      (enumQuads catNine).length < calculateTotal catNine :=
  ⟨(total_vs_enumeration demoCat).1 (by decide),
    (total_vs_enumeration catNine).2
      ⟨⟨2, none, none⟩, by simp [catNine], by decide, by decide⟩
      (by decide) (by decide) (by decide)⟩

/-- C3: an enumerated quadruple whose canonical filename is already in the
precomputed set of existing outputs is never queued and never written — its
file is untouched by the run — yet it still advances the shared progress
counter, which ends at the full enumeration count. -/
theorem skip_on_exists (cat : Catalog) (existing : List String) (q : Quad)
    (hq : q ∈ enumQuads cat) (hex : fname q ∈ existing) :
    fname q ∉ (runBatch cat existing).written ∧
    q ∉ (runBatch cat existing).queued ∧
    q ∈ (runBatch cat existing).skipped ∧
    (runBatch cat existing).finalCount = (enumQuads cat).length := by
  have htot : ¬ calculateTotal cat = 0 := by
    intro h0
    rw [enumQuads_nil_of_total cat h0] at hq
    exact absurd hq (List.not_mem_nil q)
  simp only [runBatch, if_neg htot]
  refine ⟨?_, ?_, ?_, ?_⟩
  · intro hmem
    obtain ⟨q2, hq2, he⟩ := List.mem_map.mp hmem
    have h2 := (List.mem_filter.mp hq2).2
    rw [he] at h2
    simp [hex] at h2
  · intro hmem
    have h2 := (List.mem_filter.mp hmem).2
    simp [hex] at h2
  · exact List.mem_filter.mpr ⟨hq, by simp [hex]⟩
  · exact (List.length_eq_length_filter_add
      (fun a : Quad => decide (fname a ∈ existing))).symm

/-- C3 witness: re-running the two-icon demo catalog when its single output
file already exists skips that job, writes nothing for it, and still counts
it. -/
theorem skip_on_exists_attest :
    fname (0, 1, 0, 1) ∉ (runBatch demoCat ["0-1-0-1.png"]).written ∧
    (0, 1, 0, 1) ∉ (runBatch demoCat ["0-1-0-1.png"]).queued ∧
    (0, 1, 0, 1) ∈ (runBatch demoCat ["0-1-0-1.png"]).skipped ∧
    (runBatch demoCat ["0-1-0-1.png"]).finalCount = (enumQuads demoCat).length :=
  skip_on_exists demoCat ["0-1-0-1.png"] (0, 1, 0, 1) (by decide) (by decide)

/-- C2 evidence: single-job mode does not behave as specified on malformed
input.  On the two-icon demo catalog, an out-of-range icon index is an
uncaught runtime panic (an out-of-bounds slice access), not a usage error;
out-of-range color indices still produce a badge file; and a wrong-arity
argument returns silently, printing no usage message. -/
theorem single_mode_bad_inputs :
    isRuntimeError (runSingleMode demoCat "999999_0_0_0") = true ∧
    producesFile (runSingleMode demoCat "0_1_50_50") = true ∧
    silentNoFile (runSingleMode demoCat "0_1") = true := by
  refine ⟨?_, ?_, ?_⟩ <;> rfl

/-- C10: color lookup clamps every out-of-range index (negative or past the
table) to opaque white; hence single-job mode with a well-formed quadruple,
in-range icon indices and out-of-range color indices still renders and
writes `badge.png`, its palette built from white for both tints. -/
theorem out_of_range_color_white (cat : Catalog) (arg p0 p1 p2 p3 : String)
    (hsplit : goSplit '_' arg = [p0, p1, p2, p3])
    (hs0 : 0 ≤ atoi p0) (hs1 : (atoi p0).toNat < cat.badgeIcons.length)
    (hb0 : 0 ≤ atoi p1) (hb1 : (atoi p1).toNat < cat.badgeIcons.length)
    (hc1 : atoi p2 < 0 ∨ (cat.badgeColors.length : Int) ≤ atoi p2)
    (hc2 : atoi p3 < 0 ∨ (cat.badgeColors.length : Int) ≤ atoi p3) :
    (∀ idx : Int, (idx < 0 ∨ (cat.badgeColors.length : Int) ≤ idx) →
      getColor cat idx = ⟨255, 255, 255, 255⟩) ∧
    ∃ out : OutFile, runSingleMode cat arg = .ok (some out) ∧
      out.name = "badge.png" ∧ out.path = "badge.png" ∧
      out.palette = createSmartPalette ⟨255, 255, 255, 255⟩ ⟨255, 255, 255, 255⟩ := by
  have hwhite : ∀ idx : Int, (idx < 0 ∨ (cat.badgeColors.length : Int) ≤ idx) →
      getColor cat idx = ⟨255, 255, 255, 255⟩ := by
    intro idx h
    unfold getColor
    rw [dif_pos h]
  refine ⟨hwhite, ?_⟩
  unfold runSingleMode
  rw [hsplit]
  simp only [runSingleModeParts]
  rw [dif_pos ⟨hs0, hs1⟩, dif_pos ⟨hb0, hb1⟩, hwhite (atoi p2) hc1, hwhite (atoi p3) hc2]
  exact ⟨_, rfl, rfl, rfl, rfl⟩

/-- C10 witness: on the two-icon, two-color demo catalog the argument
`0_1_50_50` has well-formed arity, valid icon indices and color indices far
past the table, and still yields `badge.png` with an all-white palette. -/
theorem out_of_range_color_white_attest :
    (∀ idx : Int, (idx < 0 ∨ (demoCat.badgeColors.length : Int) ≤ idx) →
      getColor demoCat idx = ⟨255, 255, 255, 255⟩) ∧
    ∃ out : OutFile, runSingleMode demoCat "0_1_50_50" = .ok (some out) ∧
      out.name = "badge.png" ∧ out.path = "badge.png" ∧
      out.palette = createSmartPalette ⟨255, 255, 255, 255⟩ ⟨255, 255, 255, 255⟩ :=
  out_of_range_color_white demoCat "0_1_50_50" "0" "1" "50" "50" (by decide)
    (by decide) (by decide) (by decide) (by decide) (by decide) (by decide)

/-- The nearest-index loop never leaves the palette: the running best stays
below any bound that dominates the starting best and the indices of the
remaining entries. -/
theorem bestIndexAux_lt (t : RGBA) (l : List RGBA) :
    ∀ (idx best bs n : Nat), best < n → idx + l.length ≤ n →
      bestIndexAux t l idx best bs < n := by
  induction l with
  | nil => intro idx best bs n hbest _; simpa [bestIndexAux] using hbest
  | cons q rest ih =>
    intro idx best bs n hbest hlen
    simp only [bestIndexAux, List.length_cons] at hlen ⊢
    split
    · split
      · omega
      · exact ih (idx + 1) idx _ n (by omega) (by omega)
    · exact ih (idx + 1) best bs n hbest (by omega)

theorem bestIndex_lt (t : RGBA) (pal : List RGBA) (h : pal ≠ []) :
    bestIndex t pal < pal.length := by
  have hpos : 0 < pal.length := List.length_pos.mpr h
  exact bestIndexAux_lt t pal 0 0 (2 ^ 32 - 1) pal.length hpos (by omega)

/-- C4: for every composited canvas and pair of tint colors, each quantized
pixel's palette index is in range for the smart palette, which has exactly
9 entries (at most 256), reserves entry 0 for fully transparent black, and
contains only the transparent entry and the four alpha-bucket variants of
each tint color. -/
theorem quantized_closed_palette (c1 c2 : RGBA) (img : Canvas) (fn : String) (p : Pixel) :
    (savePNG fn img (createSmartPalette c1 c2)).pix p < (createSmartPalette c1 c2).length ∧
    (createSmartPalette c1 c2).length = 9 ∧
    (createSmartPalette c1 c2).length ≤ 256 ∧
    (createSmartPalette c1 c2).head? = some transparentRGBA ∧
    ∀ e ∈ createSmartPalette c1 c2,
      e = transparentRGBA ∨
      (∃ a ∈ ([255, 170, 85, 20] : List Nat), e = ⟨c1.r, c1.g, c1.b, a⟩) ∨
      (∃ a ∈ ([255, 170, 85, 20] : List Nat), e = ⟨c2.r, c2.g, c2.b, a⟩) := by
  have hlen : (createSmartPalette c1 c2).length = 9 := by
    simp [createSmartPalette]
  refine ⟨?_, hlen, by omega, by simp [createSmartPalette], ?_⟩
  · have hbound := bestIndex_lt (img p) (createSmartPalette c1 c2)
      (by simp [createSmartPalette])
    have hlt : bestIndex (img p) (createSmartPalette c1 c2) < 256 := by omega
    simpa [savePNG, drawPalettedPix, Nat.mod_eq_of_lt hlt] using hbound
  · intro e he
    simp only [createSmartPalette, List.map_cons, List.map_nil, List.cons_append,
      List.nil_append, List.mem_cons, List.not_mem_nil, or_false] at he
    rcases he with h | h | h | h | h | h | h | h | h
    · exact Or.inl h
    · exact Or.inr (Or.inl ⟨255, by simp, h⟩)
    · exact Or.inr (Or.inl ⟨170, by simp, h⟩)
    · exact Or.inr (Or.inl ⟨85, by simp, h⟩)
    · exact Or.inr (Or.inl ⟨20, by simp, h⟩)
    · exact Or.inr (Or.inr ⟨255, by simp, h⟩)
    · exact Or.inr (Or.inr ⟨170, by simp, h⟩)
    · exact Or.inr (Or.inr ⟨85, by simp, h⟩)
    · exact Or.inr (Or.inr ⟨20, by simp, h⟩)

/-- C4 witness: the palette facts evaluated at concrete tints, a concrete
canvas, and the top-left pixel. -/
theorem quantized_closed_palette_attest :
    (savePNG "x.png" poolCanvas (createSmartPalette ⟨1, 2, 3, 255⟩ ⟨4, 5, 6, 255⟩)).pix pix0 <
      (createSmartPalette ⟨1, 2, 3, 255⟩ ⟨4, 5, 6, 255⟩).length ∧
    (createSmartPalette ⟨1, 2, 3, 255⟩ ⟨4, 5, 6, 255⟩).length = 9 ∧
    (createSmartPalette ⟨1, 2, 3, 255⟩ ⟨4, 5, 6, 255⟩).length ≤ 256 ∧
    (createSmartPalette ⟨1, 2, 3, 255⟩ ⟨4, 5, 6, 255⟩).head? = some transparentRGBA ∧
    ∀ e ∈ createSmartPalette ⟨1, 2, 3, 255⟩ ⟨4, 5, 6, 255⟩,
      e = transparentRGBA ∨
      (∃ a ∈ ([255, 170, 85, 20] : List Nat), e = ⟨(1 : Nat), 2, 3, a⟩) ∨
      (∃ a ∈ ([255, 170, 85, 20] : List Nat), e = ⟨(4 : Nat), 5, 6, a⟩) :=
  quantized_closed_palette ⟨1, 2, 3, 255⟩ ⟨4, 5, 6, 255⟩ poolCanvas "x.png" pix0

/-- C5: for a source bitmap of canvas size, preprocessing at scale 1 is an
identity placement — zero offsets, a full-canvas rectangle, and a mask that
is the resampled alpha at every canvas pixel — and at any scale 0 < s < 1
the offset on each axis is (OutputSize − ⌊OutputSize·s⌋) / 2 with Go's
truncating division. -/
theorem preprocess_centering (kernel : SrcImage → Geo → Pixel → Nat) (img : SrcImage)
    (hw : img.width = OutputSize) (hh : img.height = OutputSize) :
    (preGeometry img.width img.height 1 = ⟨0, 0, OutputSize, OutputSize⟩ ∧
      preProcessImage kernel (some img) 1 =
        some (fun p => kernel img (preGeometry img.width img.height 1) p)) ∧
    (∀ s : ℚ, 0 < s → s < 1 →
      (preGeometry img.width img.height s).ox =
        Int.tdiv ((OutputSize : Int) - ⌊(OutputSize : ℚ) * s⌋) 2 ∧
      (preGeometry img.width img.height s).oy =
        Int.tdiv ((OutputSize : Int) - ⌊(OutputSize : ℚ) * s⌋) 2) := by
  have hg : preGeometry img.width img.height 1 = ⟨0, 0, OutputSize, OutputSize⟩ := by
    rw [hw, hh]
    simp only [preGeometry, goTrunc, mul_one]
    norm_num [Int.floor_natCast]
  constructor
  · refine ⟨hg, ?_⟩
    simp only [preProcessImage, Option.map]
    congr 1
    funext p
    rw [hg]
    have hx := p.1.isLt
    have hy := p.2.isLt
    have hr : inRect ⟨0, 0, (OutputSize : Int), (OutputSize : Int)⟩ p = true := by
      simp only [inRect, Bool.and_eq_true, decide_eq_true_eq]
      refine ⟨⟨⟨?_, ?_⟩, ?_⟩, ?_⟩ <;> omega
    rw [if_pos hr]
  · intro s hs0 _
    have hnn : (0 : ℚ) ≤ (OutputSize : ℚ) * s := by positivity
    rw [hw, hh]
    simp only [preGeometry, goTrunc, if_pos hnn]
    constructor <;> trivial

/-- C5 witness: the centering facts at a concrete canvas-sized source, a
concrete kernel, and the concrete scale 1/2, where the offsets are 75. -/
theorem preprocess_centering_attest :
    (preGeometry srcImg0.width srcImg0.height 1 = ⟨0, 0, OutputSize, OutputSize⟩ ∧
      preProcessImage kernel0 (some srcImg0) 1 =
        some (fun p => kernel0 srcImg0 (preGeometry srcImg0.width srcImg0.height 1) p)) ∧
    ((preGeometry srcImg0.width srcImg0.height (1 / 2)).ox =
        Int.tdiv ((OutputSize : Int) - ⌊(OutputSize : ℚ) * (1 / 2)⌋) 2 ∧
      (preGeometry srcImg0.width srcImg0.height (1 / 2)).oy =
        Int.tdiv ((OutputSize : Int) - ⌊(OutputSize : ℚ) * (1 / 2)⌋) 2) :=
  ⟨(preprocess_centering kernel0 srcImg0 rfl rfl).1,
    (preprocess_centering kernel0 srcImg0 rfl rfl).2 (1 / 2) one_half_pos one_half_lt_one⟩

/-- C6: with the smart palette built from opaque tints c1 and c2, a job's
compositing applies exactly the order border-base, symbol, border-outline
over the cleared canvas, tinting the border with c2 (palette entry 5, 100%
c2) and both symbol and outline with c1 (palette entry 1, 100% c1), through
each mask's alpha, skipping absent layers — the spec compositor verbatim. -/
theorem compositor_layer_order (prior : Canvas) (fn : String) (c1 c2 : RGBA)
    (h1 : c1.a = 255) (h2 : c2.a = 255) (symbol border outline : Option Mask) :
    compositeJob prior ⟨fn, createSmartPalette c1 c2, symbol, border, outline⟩ =
      compositorSpec c1 c2 border symbol outline := by
  obtain ⟨r1, g1, b1, a1⟩ := c1
  obtain ⟨r2, g2, b2, a2⟩ := c2
  have e1 : a1 = 255 := h1
  have e2 : a2 = 255 := h2
  subst e1 e2
  rfl

/-- C6 witness: the layer-order law at concrete opaque tints and concrete
masks (symbol and border present, outline absent). -/
theorem compositor_layer_order_attest :
    compositeJob poolCanvas
        ⟨"w.png", createSmartPalette ⟨9, 8, 7, 255⟩ ⟨6, 5, 4, 255⟩,
          some maskA, some maskB, none⟩ =
      compositorSpec ⟨9, 8, 7, 255⟩ ⟨6, 5, 4, 255⟩ (some maskB) (some maskA) none :=
  compositor_layer_order poolCanvas "w.png" ⟨9, 8, 7, 255⟩ ⟨6, 5, 4, 255⟩ rfl rfl
    (some maskA) (some maskB) none

/-- C7: the canvas is cleared to fully transparent before each job's
compositing, so rendering a job is independent of the pooled buffer's prior
contents: the same job tuple yields identical output (identical palette,
pixel indices, name and path — hence identical encoded bytes) for any two
pool histories. -/
theorem render_pool_independent (priorA priorB : Canvas) (j : RenderJob) :
    (∀ p, clearCanvas priorA p = transparentRGBA) ∧
    processJob priorA j = processJob priorB j :=
  ⟨fun _ => rfl, rfl⟩

/-- Drawing through an everywhere-zero mask leaves the canvas unchanged:
`drawGlyphOver` skips every pixel whose mask byte is 0. -/
theorem drawTinted_zeroMask (dst : Canvas) (tint : RGBA) :
    drawTinted dst zeroMask tint = dst := by
  funext p
  simp [drawTinted, zeroMask]

/-- C8: an empty icon name, an unresolvable asset name, or a decode failure
each yield an absent raw image, which preprocessing propagates to an absent
mask; and a job with an absent mask still completes and writes a file under
its canonical name, rendering exactly as if that layer covered nothing. -/
theorem missing_bitmap_graceful (st : AssetStore)
    (kernel : SrcImage → Geo → Pixel → Nat) (scale : ℚ)
    (prior : Canvas) (j : RenderJob) :
    loadRawImage st "" = none ∧
    (∀ name : String, name ≠ "" →
      st.fileCaseMap.lookup
          (goToLower (if goHasSuffix name ".png" then name else name ++ ".png")) = none →
      loadRawImage st name = none) ∧
    (∀ (name path : String), name ≠ "" →
      st.fileCaseMap.lookup
          (goToLower (if goHasSuffix name ".png" then name else name ++ ".png")) = some path →
      st.decode path = none →
      loadRawImage st name = none) ∧
    preProcessImage kernel none scale = none ∧
    (processJob prior j).name = j.filename ∧
    (j.symbol = none → processJob prior j =
      processJob prior ⟨j.filename, j.palette, some zeroMask, j.border, j.outline⟩) ∧
    (j.border = none → processJob prior j =
      processJob prior ⟨j.filename, j.palette, j.symbol, some zeroMask, j.outline⟩) ∧
    (j.outline = none → processJob prior j =
      processJob prior ⟨j.filename, j.palette, j.symbol, j.border, some zeroMask⟩) := by
  obtain ⟨fn, pal, sym, bor, out⟩ := j
  refine ⟨rfl, ?_, ?_, rfl, rfl, ?_, ?_, ?_⟩
  · intro name hne hlook
    simp [loadRawImage, hne, hlook]
  · intro name path hne hlook hdec
    simp [loadRawImage, hne, hlook, hdec]
  · rintro rfl
    simp [processJob, compositeJob, drawTinted_zeroMask]
  · rintro rfl
    simp [processJob, compositeJob, drawTinted_zeroMask]
  · rintro rfl
    simp [processJob, compositeJob, drawTinted_zeroMask]

/-- C8 witness: the degradation facts at a concrete store whose decoder
always fails, and a concrete job with no symbol mask, which still renders
to its canonical file. -/
theorem missing_bitmap_graceful_attest :
    loadRawImage store0 "" = none ∧
    loadRawImage store0 "missing" = none ∧
    loadRawImage store0 "a" = none ∧
    preProcessImage kernel0 none 1 = none ∧
    (processJob poolCanvas jobNoSym).name = "n.png" ∧
    processJob poolCanvas jobNoSym =
      processJob poolCanvas ⟨"n.png", palette0, some zeroMask, some maskA, none⟩ := by
  refine ⟨(missing_bitmap_graceful store0 kernel0 1 poolCanvas jobNoSym).1,
    (missing_bitmap_graceful store0 kernel0 1 poolCanvas jobNoSym).2.1 "missing"
      (by decide) (by decide),
    (missing_bitmap_graceful store0 kernel0 1 poolCanvas jobNoSym).2.2.1 "a"
      "assets/badges/a.png" (by decide) (by decide) rfl,
    (missing_bitmap_graceful store0 kernel0 1 poolCanvas jobNoSym).2.2.2.1,
    (missing_bitmap_graceful store0 kernel0 1 poolCanvas jobNoSym).2.2.2.2.1,
    (missing_bitmap_graceful store0 kernel0 1 poolCanvas jobNoSym).2.2.2.2.2.1 rfl⟩

end Badge
